import Mathlib

/-!
Verification of the ws2812-spi driver (src/lib.rs): the byte-to-waveform
symbol encoder (`CommLayer::write_byte`), the reset emission
(`CommLayer::flush`) and the two strip writers (`Ws2812::write`,
`Sk6812w::write`).

The SPI peripheral (`hal::spi::FullDuplex<u8>`) is modelled as an oracle:
`sendResult n` is the outcome of the n-th blocking send (`none` = success,
`some e` = the error the peripheral reports), and `readResult n` is the
value returned by the n-th non-blocking read, which the driver discards.
The driver's interaction with the peripheral is recorded as a list of
events (bytes sent, drain reads performed), so that claims about the wire
traffic are statements about this trace.
-/

/-- One interaction with the SPI peripheral: a byte pushed through
`block!(self.spi.send(b))`, or one non-blocking drain `self.spi.read().ok()`. -/
inductive Ev where
  | send (b : Nat)
  | read
deriving DecidableEq

/-- Behaviour of the SPI peripheral, `SPI: FullDuplex<u8, Error = E>`:
the outcome of each successive blocking send, and the (discarded) result of
each successive non-blocking read. -/
structure SpiModel (E : Type) where
  sendResult : Nat → Option E
  readResult : Nat → Option Nat

/-- The trace of peripheral interactions performed so far. -/
structure SpiState where
  events : List Ev
deriving DecidableEq

/-- The bytes actually pushed onto the wire, in order. -/
def sentBytes (evs : List Ev) : List Nat :=
  evs.filterMap fun e => match e with | .send b => some b | .read => none

/-- Number of bytes sent so far: the index the next blocking send gets. -/
def nsent (s : SpiState) : Nat := (sentBytes s.events).length

/-- Number of drain reads performed so far. -/
def nreads (evs : List Ev) : Nat := (evs.filter fun e => e == Ev.read).length

variable {E : Type}

/-- Embedding of `block!(self.spi.send(b))?`: the peripheral either accepts
the byte (it goes on the wire) or reports its error, which the `?` operator
propagates. -/
def spiSend (m : SpiModel E) (s : SpiState) (b : Nat) : SpiState × Option E :=
  match m.sendResult (nsent s) with
  | some e => (s, some e)
  | none => ({ events := s.events ++ [Ev.send b] }, none)

/-- Embedding of `self.spi.read().ok();`: the non-blocking read is
performed and whatever it returns is discarded. -/
def spiRead (m : SpiModel E) (s : SpiState) : SpiState :=
  let _ := m.readResult (nreads s.events)
  { events := s.events ++ [Ev.read] }

/-- Sequencing of two fallible steps, as Rust's `?` operator: an error
from the first step aborts, keeping the trace accumulated so far. -/
def andThen (r : SpiState × Option E) (f : SpiState → SpiState × Option E) :
    SpiState × Option E :=
  match r with
  | (s, some e) => (s, some e)
  | (s, none) => f s

/-- One iteration of the bit loop in `CommLayer::write_byte`, on the pair
(serial_bits, data): `serial_bits` is a `u32` accumulator (shift wraps mod
2^32) and `data` a `u8` (shift wraps mod 256). -/
def encStep (sd : Nat × Nat) : Nat × Nat :=
  let bit := sd.2 &&& 0x80
  let pat := if bit == 0x80 then 0b110 else 0b100
  (pat ||| ((sd.1 <<< 3) % 2 ^ 32), (sd.2 <<< 1) % 256)

/-- `n` iterations of the bit loop. -/
def encIter : Nat → Nat × Nat → Nat × Nat
  | 0, sd => sd
  | n + 1, sd => encIter n (encStep sd)

/-- The accumulator after the first loop (`for _ in 0..3`). -/
def firstBits (data : Nat) : Nat := (encIter 3 (0, data)).1

/-- The accumulator after both loops (`for _ in 0..3` then `for _ in 3..8`). -/
def allBits (data : Nat) : Nat := (encIter 5 (encIter 3 (0, data))).1

/-- First byte sent by `write_byte`: `(serial_bits >> 1) as u8` after the
first loop. -/
def byte0 (data : Nat) : Nat := (firstBits data >>> 1) % 256

/-- Second byte sent by `write_byte`: `(serial_bits >> 8) as u8` after both
loops. -/
def byte1 (data : Nat) : Nat := (allBits data >>> 8) % 256

/-- Third byte sent by `write_byte`: `serial_bits as u8` after both loops. -/
def byte2 (data : Nat) : Nat := allBits data % 256

/-- Embedding of `CommLayer::write_byte`: three blocking sends of the
encoded bytes, each followed by a non-blocking drain read. -/
def write_byte (m : SpiModel E) (s : SpiState) (data : Nat) :
    SpiState × Option E :=
  andThen (spiSend m s (byte0 data)) fun s =>
  andThen (spiSend m (spiRead m s) (byte1 data)) fun s =>
  andThen (spiSend m (spiRead m s) (byte2 data)) fun s =>
  (spiRead m s, none)

/-- Embedding of the loop body count in `CommLayer::flush`: send `n`
zero bytes, each followed by a drain read, aborting on the first failure. -/
def flushN (m : SpiModel E) : Nat → SpiState → SpiState × Option E
  | 0, s => (s, none)
  | n + 1, s =>
    andThen (spiSend m s 0) fun s => flushN m n (spiRead m s)

/-- Embedding of `CommLayer::flush`: 20 zero bytes. -/
def flush (m : SpiModel E) (s : SpiState) : SpiState × Option E :=
  flushN m 20 s

/-- A 3-channel color value (`smart_leds_trait::RGB8`). -/
structure RGB8 where
  r : Nat
  g : Nat
  b : Nat
deriving DecidableEq

/-- A 4-channel color value (`smart_leds_trait::RGBW<u8, u8>`); field `a`
is the white channel (`item.a.0` in the source). -/
structure RGBW8 where
  r : Nat
  g : Nat
  b : Nat
  a : Nat
deriving DecidableEq

/-- The pixel loop of `Ws2812::write`: per pixel, `write_byte` on the
green, red and blue channel, in that order, aborting on the first error. -/
def ws2812WriteLoop (m : SpiModel E) : List RGB8 → SpiState → SpiState × Option E
  | [], s => (s, none)
  | p :: ps, s =>
    andThen (write_byte m s p.g) fun s =>
    andThen (write_byte m s p.r) fun s =>
    andThen (write_byte m s p.b) fun s =>
    ws2812WriteLoop m ps s

/-- Embedding of `<Ws2812 as SmartLedsWrite>::write`: an optional
pre-flush when the `mosi_idle_high` feature is compiled in, then the pixel
loop, then the trailing flush. -/
def ws2812Write (mosiIdleHigh : Bool) (m : SpiModel E) (s : SpiState)
    (ps : List RGB8) : SpiState × Option E :=
  andThen (if mosiIdleHigh then flush m s else (s, none)) fun s =>
  andThen (ws2812WriteLoop m ps s) fun s =>
  flush m s

/-- The pixel loop of `Sk6812w::write`: green, red, blue, then white. -/
def sk6812wWriteLoop (m : SpiModel E) : List RGBW8 → SpiState → SpiState × Option E
  | [], s => (s, none)
  | p :: ps, s =>
    andThen (write_byte m s p.g) fun s =>
    andThen (write_byte m s p.r) fun s =>
    andThen (write_byte m s p.b) fun s =>
    andThen (write_byte m s p.a) fun s =>
    sk6812wWriteLoop m ps s

/-- Embedding of `<Sk6812w as SmartLedsWrite>::write`. -/
def sk6812wWrite (mosiIdleHigh : Bool) (m : SpiModel E) (s : SpiState)
    (ps : List RGBW8) : SpiState × Option E :=
  andThen (if mosiIdleHigh then flush m s else (s, none)) fun s =>
  andThen (sk6812wWriteLoop m ps s) fun s =>
  flush m s

/-- The 3-bit pulse pattern of one logical bit, from the spec's words:
`110` for a logical 1, `100` for a logical 0. -/
def bitPattern (bit : Bool) : Nat := if bit then 0b110 else 0b100

/-- The 24-bit string `p7 p6 p5 p4 p3 p2 p1 p0` of the spec, read as a
number: bit 7 of the input processed first, most significant. -/
def specPattern24 (b : Nat) : Nat :=
  (List.range 8).reverse.foldl (fun acc i => acc * 8 + bitPattern (b.testBit i)) 0

/-- The event trace of one successful `write_byte` call. -/
def encEvents (b : Nat) : List Ev :=
  [Ev.send (byte0 b), Ev.read, Ev.send (byte1 b), Ev.read, Ev.send (byte2 b), Ev.read]

/-- The event trace of a successful `flushN n`. -/
def flushNEvents : Nat → List Ev
  | 0 => []
  | n + 1 => Ev.send 0 :: Ev.read :: flushNEvents n

/-- The event trace of a successful `flush`. -/
def flushEvents : List Ev := flushNEvents 20

/-- The per-pixel event trace of the 3-channel writer: green, red, blue. -/
def wsPixelEvents (p : RGB8) : List Ev :=
  encEvents p.g ++ encEvents p.r ++ encEvents p.b

/-- The event trace of a successful 3-channel pixel loop. -/
def wsLoopEvents : List RGB8 → List Ev
  | [] => []
  | p :: ps => wsPixelEvents p ++ wsLoopEvents ps

/-- The per-pixel event trace of the 4-channel writer: green, red, blue,
white. -/
def skPixelEvents (p : RGBW8) : List Ev :=
  encEvents p.g ++ encEvents p.r ++ encEvents p.b ++ encEvents p.a

/-- The event trace of a successful 4-channel pixel loop. -/
def skLoopEvents : List RGBW8 → List Ev
  | [] => []
  | p :: ps => skPixelEvents p ++ skLoopEvents ps

/-- The full event trace of a successful `ws2812Write`. -/
def wsWriteEvents (mosiIdleHigh : Bool) (ps : List RGB8) : List Ev :=
  (if mosiIdleHigh then flushEvents else []) ++ wsLoopEvents ps ++ flushEvents

/-- The full event trace of a successful `sk6812wWrite`. -/
def skWriteEvents (mosiIdleHigh : Bool) (ps : List RGBW8) : List Ev :=
  (if mosiIdleHigh then flushEvents else []) ++ skLoopEvents ps ++ flushEvents

/-- A peripheral on which every send succeeds and reads return nothing. -/
def mOk : SpiModel Unit := ⟨fun _ => none, fun _ => none⟩

/-- A peripheral on which every send fails. -/
def mFail : SpiModel Unit := ⟨fun _ => some (), fun _ => none⟩

/-- A peripheral failing exactly on the k-th send. -/
def mFailAt (k : Nat) : SpiModel Unit :=
  ⟨fun n => if n = k then some () else none, fun _ => none⟩

/-- The empty initial trace. -/
def s0 : SpiState := ⟨[]⟩

/-! Basic trace lemmas. -/

theorem sentBytes_append (a b : List Ev) :
    sentBytes (a ++ b) = sentBytes a ++ sentBytes b := by
  simp [sentBytes]

theorem nsent_append_send (s : SpiState) (b : Nat) :
    nsent ⟨s.events ++ [Ev.send b]⟩ = nsent s + 1 := by
  simp [nsent, sentBytes_append, sentBytes]

theorem nsent_spiRead (m : SpiModel E) (s : SpiState) :
    nsent (spiRead m s) = nsent s := by
  simp [nsent, spiRead, sentBytes_append, sentBytes]

theorem spiRead_events (m : SpiModel E) (s : SpiState) :
    (spiRead m s).events = s.events ++ [Ev.read] := rfl

/-- All sends with index in the half-open interval `[a, b)` succeed. -/
def SendsOk (m : SpiModel E) (a b : Nat) : Prop :=
  ∀ j, a ≤ j → j < b → m.sendResult j = none

theorem SendsOk.empty (m : SpiModel E) (a : Nat) : SendsOk m a a :=
  fun _ h1 h2 => absurd (lt_of_le_of_lt h1 h2) (lt_irrefl a)

theorem SendsOk.glue {m : SpiModel E} {a b c : Nat}
    (h1 : SendsOk m a b) (h2 : SendsOk m b c) : SendsOk m a c := by
  intro j hj1 hj2
  rcases lt_or_le j b with h | h
  · exact h1 j hj1 h
  · exact h2 j h hj2

/-- `u` is a front part of the trace `T`: some tail completes it to `T`. -/
def FrontOf (u T : List Ev) : Prop := ∃ v, u ++ v = T

theorem FrontOf.nil (T : List Ev) : FrontOf [] T := ⟨T, rfl⟩

theorem FrontOf.extend {u T1 : List Ev} (T2 : List Ev) (h : FrontOf u T1) :
    FrontOf u (T1 ++ T2) := by
  rcases h with ⟨v, hv⟩
  exact ⟨v ++ T2, by rw [← List.append_assoc, hv]⟩

theorem FrontOf.shift {u T2 : List Ev} (T1 : List Ev) (h : FrontOf u T2) :
    FrontOf (T1 ++ u) (T1 ++ T2) := by
  rcases h with ⟨v, hv⟩
  exact ⟨v, by rw [List.append_assoc, hv]⟩

/-- Full characterization of one driver step from state `s` with intended
event trace `T`: on success the whole of `T` is appended to the trace and
every send in it succeeded; on error, only a front part of `T` was
performed, every send in that part succeeded, and the reported error is
exactly what the peripheral answered to the next send. -/
def RunsTo (m : SpiModel E) (s : SpiState) (T : List Ev)
    (r : SpiState × Option E) : Prop :=
  match r with
  | (s', none) => s'.events = s.events ++ T ∧ SendsOk m (nsent s) (nsent s')
  | (s', some e) =>
      (∃ u, FrontOf u T ∧ s'.events = s.events ++ u) ∧
      m.sendResult (nsent s') = some e ∧ SendsOk m (nsent s) (nsent s')

theorem RunsTo.seq {m : SpiModel E} {s : SpiState} {T1 T2 : List Ev}
    {r1 : SpiState × Option E} {f : SpiState → SpiState × Option E}
    (h1 : RunsTo m s T1 r1)
    (h2 : ∀ s1, s1.events = s.events ++ T1 → RunsTo m s1 T2 (f s1)) :
    RunsTo m s (T1 ++ T2) (andThen r1 f) := by
  rcases r1 with ⟨s1, e1⟩
  cases e1 with
  | some e =>
    rcases h1 with ⟨⟨u, hu, hev⟩, herr, hok⟩
    exact ⟨⟨u, hu.extend T2, hev⟩, herr, hok⟩
  | none =>
    rcases h1 with ⟨hev, hok⟩
    have h2s := h2 s1 hev
    show RunsTo m s (T1 ++ T2) (f s1)
    rcases hf : f s1 with ⟨s2, e2⟩
    rw [hf] at h2s
    cases e2 with
    | none =>
      rcases h2s with ⟨hev2, hok2⟩
      exact ⟨by rw [hev2, hev, List.append_assoc], hok.glue hok2⟩
    | some e =>
      rcases h2s with ⟨⟨u, hu, hev2⟩, herr2, hok2⟩
      refine ⟨⟨T1 ++ u, hu.shift T1, ?_⟩, herr2, hok.glue hok2⟩
      rw [hev2, hev, List.append_assoc]

theorem RunsTo.prepend {m : SpiModel E} {s s1 : SpiState} {T P : List Ev}
    {r : SpiState × Option E} (hP : s1.events = s.events ++ P)
    (hn : nsent s1 = nsent s) (h : RunsTo m s1 T r) :
    RunsTo m s (P ++ T) r := by
  rcases r with ⟨s2, e2⟩
  cases e2 with
  | none =>
    rcases h with ⟨hev, hok⟩
    exact ⟨by rw [hev, hP, List.append_assoc], by rw [← hn]; exact hok⟩
  | some e =>
    rcases h with ⟨⟨u, hu, hev⟩, herr, hok⟩
    refine ⟨⟨P ++ u, hu.shift P, ?_⟩, herr, by rw [← hn]; exact hok⟩
    rw [hev, hP, List.append_assoc]

theorem spiSend_runs (m : SpiModel E) (s : SpiState) (b : Nat) :
    RunsTo m s [Ev.send b] (spiSend m s b) := by
  unfold spiSend
  cases hm : m.sendResult (nsent s) with
  | some e =>
    exact ⟨⟨[], FrontOf.nil _, by simp⟩, hm, SendsOk.empty m (nsent s)⟩
  | none =>
    refine ⟨rfl, ?_⟩
    rw [nsent_append_send]
    intro j h1 h2
    have : j = nsent s := by omega
    rw [this]; exact hm

theorem readDone_runs (m : SpiModel E) (s : SpiState) :
    RunsTo m s [Ev.read] (spiRead m s, none) :=
  ⟨spiRead_events m s, by rw [nsent_spiRead]; exact SendsOk.empty m (nsent s)⟩

theorem write_byte_runs (m : SpiModel E) (s : SpiState) (d : Nat) :
    RunsTo m s (encEvents d) (write_byte m s d) := by
  have hsplit : encEvents d =
      [Ev.send (byte0 d)] ++ ([Ev.read] ++ ([Ev.send (byte1 d)] ++
        ([Ev.read] ++ ([Ev.send (byte2 d)] ++ [Ev.read])))) := rfl
  rw [hsplit, write_byte]
  refine RunsTo.seq (spiSend_runs m s (byte0 d)) fun s1 h1 => ?_
  refine RunsTo.prepend (spiRead_events m s1) (nsent_spiRead m s1) ?_
  refine RunsTo.seq (spiSend_runs m (spiRead m s1) (byte1 d)) fun s2 h2 => ?_
  refine RunsTo.prepend (spiRead_events m s2) (nsent_spiRead m s2) ?_
  refine RunsTo.seq (spiSend_runs m (spiRead m s2) (byte2 d)) fun s3 h3 => ?_
  exact readDone_runs m s3

theorem flushN_runs (m : SpiModel E) :
    ∀ (n : Nat) (s : SpiState), RunsTo m s (flushNEvents n) (flushN m n s)
  | 0, s => ⟨by simp [flushNEvents], SendsOk.empty m (nsent s)⟩
  | n + 1, s => by
    have hsplit : flushNEvents (n + 1) = [Ev.send 0] ++ (Ev.read :: flushNEvents n) := rfl
    rw [hsplit, flushN]
    refine RunsTo.seq (spiSend_runs m s 0) fun s1 h1 => ?_
    have : Ev.read :: flushNEvents n = [Ev.read] ++ flushNEvents n := rfl
    rw [this]
    exact RunsTo.prepend (spiRead_events m s1) (nsent_spiRead m s1)
      (flushN_runs m n (spiRead m s1))

theorem flush_runs (m : SpiModel E) (s : SpiState) :
    RunsTo m s flushEvents (flush m s) :=
  flushN_runs m 20 s

theorem ws2812WriteLoop_runs (m : SpiModel E) :
    ∀ (ps : List RGB8) (s : SpiState),
      RunsTo m s (wsLoopEvents ps) (ws2812WriteLoop m ps s)
  | [], s => ⟨by simp [wsLoopEvents], SendsOk.empty m (nsent s)⟩
  | p :: ps, s => by
    have hsplit : wsLoopEvents (p :: ps) =
        encEvents p.g ++ (encEvents p.r ++ (encEvents p.b ++ wsLoopEvents ps)) := by
      simp [wsLoopEvents, wsPixelEvents]
    rw [hsplit, ws2812WriteLoop]
    refine RunsTo.seq (write_byte_runs m s p.g) fun s1 h1 => ?_
    refine RunsTo.seq (write_byte_runs m s1 p.r) fun s2 h2 => ?_
    refine RunsTo.seq (write_byte_runs m s2 p.b) fun s3 h3 => ?_
    exact ws2812WriteLoop_runs m ps s3

theorem sk6812wWriteLoop_runs (m : SpiModel E) :
    ∀ (ps : List RGBW8) (s : SpiState),
      RunsTo m s (skLoopEvents ps) (sk6812wWriteLoop m ps s)
  | [], s => ⟨by simp [skLoopEvents], SendsOk.empty m (nsent s)⟩
  | p :: ps, s => by
    have hsplit : skLoopEvents (p :: ps) =
        encEvents p.g ++ (encEvents p.r ++ (encEvents p.b ++
          (encEvents p.a ++ skLoopEvents ps))) := by
      simp [skLoopEvents, skPixelEvents]
    rw [hsplit, sk6812wWriteLoop]
    refine RunsTo.seq (write_byte_runs m s p.g) fun s1 h1 => ?_
    refine RunsTo.seq (write_byte_runs m s1 p.r) fun s2 h2 => ?_
    refine RunsTo.seq (write_byte_runs m s2 p.b) fun s3 h3 => ?_
    refine RunsTo.seq (write_byte_runs m s3 p.a) fun s4 h4 => ?_
    exact sk6812wWriteLoop_runs m ps s4

theorem ws2812Write_runs (idle : Bool) (m : SpiModel E) (s : SpiState)
    (ps : List RGB8) :
    RunsTo m s (wsWriteEvents idle ps) (ws2812Write idle m s ps) := by
  have hsplit : wsWriteEvents idle ps =
      (if idle then flushEvents else []) ++ (wsLoopEvents ps ++ flushEvents) := by
    simp [wsWriteEvents]
  rw [hsplit, ws2812Write]
  refine RunsTo.seq ?_ fun s1 h1 => ?_
  · cases idle with
    | true => simpa using flush_runs m s
    | false => exact ⟨by simp, SendsOk.empty m (nsent s)⟩
  · refine RunsTo.seq (ws2812WriteLoop_runs m ps s1) fun s2 h2 => ?_
    exact flush_runs m s2

theorem sk6812wWrite_runs (idle : Bool) (m : SpiModel E) (s : SpiState)
    (ps : List RGBW8) :
    RunsTo m s (skWriteEvents idle ps) (sk6812wWrite idle m s ps) := by
  have hsplit : skWriteEvents idle ps =
      (if idle then flushEvents else []) ++ (skLoopEvents ps ++ flushEvents) := by
    simp [skWriteEvents]
  rw [hsplit, sk6812wWrite]
  refine RunsTo.seq ?_ fun s1 h1 => ?_
  · cases idle with
    | true => simpa using flush_runs m s
    | false => exact ⟨by simp, SendsOk.empty m (nsent s)⟩
  · refine RunsTo.seq (sk6812wWriteLoop_runs m ps s1) fun s2 h2 => ?_
    exact flush_runs m s2

/-- The three wire bytes of one encoded channel byte. -/
def encBytes (d : Nat) : List Nat := [byte0 d, byte1 d, byte2 d]

/-- The wire bytes of one 3-channel pixel: green, red, blue. -/
def wsPixelBytes (p : RGB8) : List Nat := encBytes p.g ++ encBytes p.r ++ encBytes p.b

/-- The wire bytes of a 3-channel pixel sequence. -/
def wsLoopBytes : List RGB8 → List Nat
  | [] => []
  | p :: ps => wsPixelBytes p ++ wsLoopBytes ps

/-- The wire bytes of one 4-channel pixel: green, red, blue, white. -/
def skPixelBytes (p : RGBW8) : List Nat :=
  encBytes p.g ++ encBytes p.r ++ encBytes p.b ++ encBytes p.a

/-- The wire bytes of a 4-channel pixel sequence. -/
def skLoopBytes : List RGBW8 → List Nat
  | [] => []
  | p :: ps => skPixelBytes p ++ skLoopBytes ps

theorem sentBytes_encEvents (d : Nat) :
    sentBytes (encEvents d) = encBytes d := rfl

theorem sentBytes_flushNEvents : ∀ n, sentBytes (flushNEvents n) = List.replicate n 0
  | 0 => rfl
  | n + 1 => by
    show 0 :: sentBytes (flushNEvents n) = List.replicate (n + 1) 0
    rw [sentBytes_flushNEvents n, List.replicate_succ]

theorem sentBytes_flushEvents : sentBytes flushEvents = List.replicate 20 0 :=
  sentBytes_flushNEvents 20

theorem sentBytes_wsLoopEvents : ∀ ps, sentBytes (wsLoopEvents ps) = wsLoopBytes ps
  | [] => rfl
  | p :: ps => by
    show sentBytes (wsPixelEvents p ++ wsLoopEvents ps) = wsLoopBytes (p :: ps)
    rw [sentBytes_append, sentBytes_wsLoopEvents ps]
    show sentBytes (encEvents p.g ++ encEvents p.r ++ encEvents p.b) ++ _ = _
    rw [sentBytes_append, sentBytes_append, sentBytes_encEvents,
      sentBytes_encEvents, sentBytes_encEvents]
    rfl

theorem sentBytes_skLoopEvents : ∀ ps, sentBytes (skLoopEvents ps) = skLoopBytes ps
  | [] => rfl
  | p :: ps => by
    show sentBytes (skPixelEvents p ++ skLoopEvents ps) = skLoopBytes (p :: ps)
    rw [sentBytes_append, sentBytes_skLoopEvents ps]
    show sentBytes (encEvents p.g ++ encEvents p.r ++ encEvents p.b ++ encEvents p.a) ++ _ = _
    rw [sentBytes_append, sentBytes_append, sentBytes_append, sentBytes_encEvents,
      sentBytes_encEvents, sentBytes_encEvents, sentBytes_encEvents]
    rfl

theorem wsLoopBytes_length : ∀ ps : List RGB8, (wsLoopBytes ps).length = ps.length * 9
  | [] => rfl
  | p :: ps => by
    show (wsPixelBytes p ++ wsLoopBytes ps).length = (ps.length + 1) * 9
    rw [List.length_append, wsLoopBytes_length ps]
    show 9 + ps.length * 9 = (ps.length + 1) * 9
    ring

theorem skLoopBytes_length : ∀ ps : List RGBW8, (skLoopBytes ps).length = ps.length * 12
  | [] => rfl
  | p :: ps => by
    show (skPixelBytes p ++ skLoopBytes ps).length = (ps.length + 1) * 12
    rw [List.length_append, skLoopBytes_length ps]
    show 12 + ps.length * 12 = (ps.length + 1) * 12
    ring

/-! Independence from the peripheral's receive behaviour: the drain read's
result never influences the driver. -/

theorem spiRead_indep (m1 m2 : SpiModel E) (s : SpiState) :
    spiRead m1 s = spiRead m2 s := rfl

theorem spiSend_indep {m1 m2 : SpiModel E} (h : m1.sendResult = m2.sendResult)
    (s : SpiState) (b : Nat) : spiSend m1 s b = spiSend m2 s b := by
  simp [spiSend, h]

theorem write_byte_indep {m1 m2 : SpiModel E} (h : m1.sendResult = m2.sendResult)
    (s : SpiState) (d : Nat) : write_byte m1 s d = write_byte m2 s d := by
  simp [write_byte, spiSend_indep h, spiRead_indep m1 m2]

theorem flushN_indep {m1 m2 : SpiModel E} (h : m1.sendResult = m2.sendResult) :
    ∀ (n : Nat) (s : SpiState), flushN m1 n s = flushN m2 n s
  | 0, _ => rfl
  | n + 1, s => by
    rw [flushN, flushN, spiSend_indep h]
    congr 1
    funext s1
    rw [spiRead_indep m1 m2, flushN_indep h n]

theorem flush_indep {m1 m2 : SpiModel E} (h : m1.sendResult = m2.sendResult)
    (s : SpiState) : flush m1 s = flush m2 s :=
  flushN_indep h 20 s

theorem ws2812WriteLoop_indep {m1 m2 : SpiModel E}
    (h : m1.sendResult = m2.sendResult) :
    ∀ (ps : List RGB8) (s : SpiState),
      ws2812WriteLoop m1 ps s = ws2812WriteLoop m2 ps s
  | [], _ => rfl
  | p :: ps, s => by
    rw [ws2812WriteLoop, ws2812WriteLoop]
    simp [write_byte_indep h, ws2812WriteLoop_indep h ps]

theorem sk6812wWriteLoop_indep {m1 m2 : SpiModel E}
    (h : m1.sendResult = m2.sendResult) :
    ∀ (ps : List RGBW8) (s : SpiState),
      sk6812wWriteLoop m1 ps s = sk6812wWriteLoop m2 ps s
  | [], _ => rfl
  | p :: ps, s => by
    rw [sk6812wWriteLoop, sk6812wWriteLoop]
    simp [write_byte_indep h, sk6812wWriteLoop_indep h ps]

theorem ws2812Write_indep {m1 m2 : SpiModel E} (h : m1.sendResult = m2.sendResult)
    (idle : Bool) (s : SpiState) (ps : List RGB8) :
    ws2812Write idle m1 s ps = ws2812Write idle m2 s ps := by
  rw [ws2812Write, ws2812Write]
  simp [flush_indep h, ws2812WriteLoop_indep h ps]

theorem sk6812wWrite_indep {m1 m2 : SpiModel E} (h : m1.sendResult = m2.sendResult)
    (idle : Bool) (s : SpiState) (ps : List RGBW8) :
    sk6812wWrite idle m1 s ps = sk6812wWrite idle m2 s ps := by
  rw [sk6812wWrite, sk6812wWrite]
  simp [flush_indep h, sk6812wWriteLoop_indep h ps]

/-! Decidable facts about the encoder, checked on all 256 channel bytes. -/

set_option maxRecDepth 10000 in
theorem encBytes_pattern : ∀ b : Fin 256,
    byte0 b.val * 65536 + byte1 b.val * 256 + byte2 b.val = specPattern24 b.val := by
  decide

set_option maxRecDepth 10000 in
theorem encBytes_ne_zero : ∀ b : Fin 256, ∀ x ∈ encBytes b.val, x ≠ 0 := by
  decide

/-! The claims. -/

/-- C1: for every input byte b in [0,255], `write_byte` sends exactly 3
bytes to the peripheral on success, and their concatenation read MSB first
is the 24-bit string p7 p6 p5 p4 p3 p2 p1 p0 where pi is 110 if bit i of b
is set and 100 otherwise, bit 7 processed first; encoding 0x00 sends
[0b10010010, 0b01001001, 0b00100100] and 0xFF sends
[0b11011011, 0b01101101, 0b10110110]. -/
theorem write_byte_encodes_spec_pattern (b : Fin 256) :
    (∀ (F : Type) (m : SpiModel F) (s s' : SpiState),
        write_byte m s b.val = (s', none) →
        sentBytes s'.events =
          sentBytes s.events ++ [byte0 b.val, byte1 b.val, byte2 b.val]) ∧
    byte0 b.val * 65536 + byte1 b.val * 256 + byte2 b.val = specPattern24 b.val ∧
    [byte0 0x00, byte1 0x00, byte2 0x00] = [0b10010010, 0b01001001, 0b00100100] ∧
    [byte0 0xFF, byte1 0xFF, byte2 0xFF] = [0b11011011, 0b01101101, 0b10110110] := by
  refine ⟨?_, encBytes_pattern b, by decide, by decide⟩
  intro F m s s' h
  have hr := write_byte_runs m s b.val
  rw [h] at hr
  rw [hr.1, sentBytes_append, sentBytes_encEvents]
  rfl

/-- Witness for C1 at input byte 167 on an always-succeeding peripheral. -/
theorem write_byte_encodes_spec_pattern_witness :
    sentBytes (write_byte mOk s0 167).1.events =
      sentBytes s0.events ++ [byte0 167, byte1 167, byte2 167] :=
  (write_byte_encodes_spec_pattern ⟨167, by decide⟩).1 Unit mOk s0
    (write_byte mOk s0 167).1 rfl

/-- C2 as stated is false. On a peripheral whose every send fails, writing
one pixel with the 3-channel variant aborts with the peripheral's error
and zero wire bytes: the trailing 20-zero-byte flush was not performed, so
the flush is not unconditional on an aborted write. -/
theorem trailing_flush_not_unconditional_cex :
    ws2812Write false mFail s0 [⟨1, 2, 3⟩] = (s0, some ()) ∧
    (sentBytes (ws2812Write false mFail s0 [⟨1, 2, 3⟩]).1.events).length = 0 ∧
    ¬ 20 ≤ (sentBytes (ws2812Write false mFail s0 [⟨1, 2, 3⟩]).1.events).length :=
  ⟨rfl, rfl, by decide⟩

/-- C2 amended: both variants perform one complete flush (20 zero bytes)
after the sequence is exhausted when no send failed; a send failure aborts
the write immediately without the trailing flush. On success the event
trace ends with a full flush. -/
theorem trailing_flush_on_success {F : Type} (idle : Bool) (m : SpiModel F)
    (s s' : SpiState) :
    (∀ ps : List RGB8, ws2812Write idle m s ps = (s', none) →
        ∃ t, s'.events = t ++ flushEvents ∧
          sentBytes flushEvents = List.replicate 20 0) ∧
    (∀ ps : List RGBW8, sk6812wWrite idle m s ps = (s', none) →
        ∃ t, s'.events = t ++ flushEvents ∧
          sentBytes flushEvents = List.replicate 20 0) := by
  constructor
  · intro ps h
    have hr := ws2812Write_runs idle m s ps
    rw [h] at hr
    refine ⟨s.events ++ ((if idle then flushEvents else []) ++ wsLoopEvents ps),
      ?_, sentBytes_flushEvents⟩
    rw [hr.1, wsWriteEvents]
    simp [List.append_assoc]
  · intro ps h
    have hr := sk6812wWrite_runs idle m s ps
    rw [h] at hr
    refine ⟨s.events ++ ((if idle then flushEvents else []) ++ skLoopEvents ps),
      ?_, sentBytes_flushEvents⟩
    rw [hr.1, skWriteEvents]
    simp [List.append_assoc]

/-- Witness for C2 (amended) on an empty write over an always-succeeding
peripheral. -/
theorem trailing_flush_on_success_witness :
    ∃ t, (ws2812Write false mOk s0 ([] : List RGB8)).1.events = t ++ flushEvents ∧
      sentBytes flushEvents = List.replicate 20 0 :=
  (trailing_flush_on_success false mOk s0
    (ws2812Write false mOk s0 ([] : List RGB8)).1).1 [] rfl

/-- C6 as stated is false: the code performs the drain read after the
third transfer as well. Encoding byte 0x00 on an always-succeeding
peripheral yields a 6-event trace ending in a read after the third send,
not the 5-event trace the claim describes. -/
theorem drain_after_third_transfer_cex :
    (write_byte mOk s0 0).1.events =
      [Ev.send 0x92, Ev.read, Ev.send 0x49, Ev.read, Ev.send 0x24, Ev.read] ∧
    (write_byte mOk s0 0).1.events ≠
      [Ev.send 0x92, Ev.read, Ev.send 0x49, Ev.read, Ev.send 0x24] :=
  ⟨by decide, by decide⟩

/-- C6 amended: within one channel-byte encoding, the non-blocking drain
read is performed immediately after each of the three byte transfers,
including the third. -/
theorem drain_read_after_each_transfer {F : Type} (m : SpiModel F)
    (s s' : SpiState) (d : Nat) (h : write_byte m s d = (s', none)) :
    s'.events = s.events ++
      [Ev.send (byte0 d), Ev.read, Ev.send (byte1 d), Ev.read,
        Ev.send (byte2 d), Ev.read] := by
  have hr := write_byte_runs m s d
  rw [h] at hr
  exact hr.1

/-- Witness for C6 (amended) at input byte 5. -/
theorem drain_read_after_each_transfer_witness :
    (write_byte mOk s0 5).1.events = s0.events ++
      [Ev.send (byte0 5), Ev.read, Ev.send (byte1 5), Ev.read,
        Ev.send (byte2 5), Ev.read] :=
  drain_read_after_each_transfer mOk s0 (write_byte mOk s0 5).1 5 rfl

/-- C3: a successful write of N pixels sends exactly N*9+20 wire bytes for
the 3-channel variant and N*12+20 for the 4-channel variant, plus an extra
20 when the mosi_idle_high flag is set; an empty write sends exactly 20
bytes without the flag and 40 with it. -/
theorem write_sends_exact_byte_count {F : Type} (idle : Bool) (m : SpiModel F)
    (s s' : SpiState) :
    (∀ ps : List RGB8, ws2812Write idle m s ps = (s', none) →
        (sentBytes s'.events).length =
          (sentBytes s.events).length + ps.length * 9 + 20 +
            (if idle then 20 else 0)) ∧
    (∀ ps : List RGBW8, sk6812wWrite idle m s ps = (s', none) →
        (sentBytes s'.events).length =
          (sentBytes s.events).length + ps.length * 12 + 20 +
            (if idle then 20 else 0)) ∧
    (sentBytes (ws2812Write false mOk s0 ([] : List RGB8)).1.events).length = 20 ∧
    (sentBytes (ws2812Write true mOk s0 ([] : List RGB8)).1.events).length = 40 := by
  refine ⟨?_, ?_, rfl, rfl⟩
  · intro ps h
    have hr := ws2812Write_runs idle m s ps
    rw [h] at hr
    rw [hr.1, wsWriteEvents]
    cases idle <;>
      simp [sentBytes_append, sentBytes_flushEvents, sentBytes_wsLoopEvents,
        wsLoopBytes_length] <;> omega
  · intro ps h
    have hr := sk6812wWrite_runs idle m s ps
    rw [h] at hr
    rw [hr.1, skWriteEvents]
    cases idle <;>
      simp [sentBytes_append, sentBytes_flushEvents, sentBytes_skLoopEvents,
        skLoopBytes_length] <;> omega

/-- Witness for C3: one 3-channel pixel, flag off, always-succeeding
peripheral. -/
theorem write_sends_exact_byte_count_witness :
    (sentBytes (ws2812Write false mOk s0 [⟨1, 2, 3⟩]).1.events).length =
      (sentBytes s0.events).length + [(⟨1, 2, 3⟩ : RGB8)].length * 9 + 20 +
        (if false then 20 else 0) :=
  (write_sends_exact_byte_count false mOk s0
    (ws2812Write false mOk s0 [⟨1, 2, 3⟩]).1).1 [⟨1, 2, 3⟩] rfl

/-- C4: for every pixel the channel bytes go out in the fixed order green,
red, blue for the 3-channel variant and green, red, blue, white for the
4-channel variant; a 3-channel pixel (r=1, g=2, b=3) transmits the symbol
of 2 first, then 1, then 3, and a 4-channel pixel (r=1, g=2, b=3, w=4)
transmits in order 2, 1, 3, 4. -/
theorem write_channel_order {F : Type} (idle : Bool) (m : SpiModel F)
    (s s' : SpiState) :
    (∀ ps : List RGB8, ws2812Write idle m s ps = (s', none) →
        sentBytes s'.events = sentBytes s.events ++
          (if idle then List.replicate 20 0 else []) ++ wsLoopBytes ps ++
          List.replicate 20 0) ∧
    (∀ ps : List RGBW8, sk6812wWrite idle m s ps = (s', none) →
        sentBytes s'.events = sentBytes s.events ++
          (if idle then List.replicate 20 0 else []) ++ skLoopBytes ps ++
          List.replicate 20 0) ∧
    wsPixelBytes ⟨1, 2, 3⟩ = encBytes 2 ++ encBytes 1 ++ encBytes 3 ∧
    skPixelBytes ⟨1, 2, 3, 4⟩ =
      encBytes 2 ++ encBytes 1 ++ encBytes 3 ++ encBytes 4 := by
  refine ⟨?_, ?_, rfl, rfl⟩
  · intro ps h
    have hr := ws2812Write_runs idle m s ps
    rw [h] at hr
    rw [hr.1, wsWriteEvents]
    cases idle <;>
      simp [sentBytes_append, sentBytes_flushEvents, sentBytes_wsLoopEvents,
        List.append_assoc]
  · intro ps h
    have hr := sk6812wWrite_runs idle m s ps
    rw [h] at hr
    rw [hr.1, skWriteEvents]
    cases idle <;>
      simp [sentBytes_append, sentBytes_flushEvents, sentBytes_skLoopEvents,
        List.append_assoc]

/-- Witness for C4: one pixel (r=1, g=2, b=3), flag off. -/
theorem write_channel_order_witness :
    sentBytes (ws2812Write false mOk s0 [⟨1, 2, 3⟩]).1.events =
      sentBytes s0.events ++ (if false then List.replicate 20 0 else []) ++
        wsLoopBytes [⟨1, 2, 3⟩] ++ List.replicate 20 0 :=
  (write_channel_order false mOk s0
    (ws2812Write false mOk s0 [⟨1, 2, 3⟩]).1).1 [⟨1, 2, 3⟩] rfl

/-- C5: if the peripheral's send fails during a write, the call returns
exactly the error the peripheral reported (the error of the send with the
index the trace stopped at), every earlier send succeeded (so the failing
send is the first failure and nothing was sent after it), and the events
performed form a front part of the full write trace: the remaining channel
bytes of the failing pixel and all later pixels are never processed. -/
theorem write_error_fail_fast {F : Type} (idle : Bool) (m : SpiModel F)
    (s s' : SpiState) (e : F) :
    (∀ ps : List RGB8, ws2812Write idle m s ps = (s', some e) →
        m.sendResult (nsent s') = some e ∧
        SendsOk m (nsent s) (nsent s') ∧
        ∃ u, FrontOf u (wsWriteEvents idle ps) ∧ s'.events = s.events ++ u) ∧
    (∀ ps : List RGBW8, sk6812wWrite idle m s ps = (s', some e) →
        m.sendResult (nsent s') = some e ∧
        SendsOk m (nsent s) (nsent s') ∧
        ∃ u, FrontOf u (skWriteEvents idle ps) ∧ s'.events = s.events ++ u) := by
  constructor
  · intro ps h
    have hr := ws2812Write_runs idle m s ps
    rw [h] at hr
    exact ⟨hr.2.1, hr.2.2, hr.1⟩
  · intro ps h
    have hr := sk6812wWrite_runs idle m s ps
    rw [h] at hr
    exact ⟨hr.2.1, hr.2.2, hr.1⟩

/-- Witness for C5: the peripheral fails on its fifth send (index 4),
which is the second byte of the red channel of the first pixel. -/
theorem write_error_fail_fast_witness :
    (mFailAt 4).sendResult
        (nsent (ws2812Write false (mFailAt 4) s0 [⟨1, 2, 3⟩]).1) = some () ∧
    SendsOk (mFailAt 4) (nsent s0)
      (nsent (ws2812Write false (mFailAt 4) s0 [⟨1, 2, 3⟩]).1) ∧
    ∃ u, FrontOf u (wsWriteEvents false [⟨1, 2, 3⟩]) ∧
      (ws2812Write false (mFailAt 4) s0 [⟨1, 2, 3⟩]).1.events = s0.events ++ u :=
  (write_error_fail_fast false (mFailAt 4) s0
    (ws2812Write false (mFailAt 4) s0 [⟨1, 2, 3⟩]).1 ()).1 [⟨1, 2, 3⟩] rfl

/-- C7: `flush` on success sends exactly 20 zero bytes, each followed by a
drain read (the trace alternates a zero-byte send and a read 20 times); it
fails only when a send fails, returning exactly the peripheral's error,
with every earlier send succeeded and only a front part of the 20 zero
bytes performed. -/
theorem flush_twenty_zeros_fail_fast {F : Type} (m : SpiModel F)
    (s s' : SpiState) :
    (flush m s = (s', none) →
        s'.events = s.events ++ flushEvents ∧
        sentBytes flushEvents = List.replicate 20 0) ∧
    (∀ e : F, flush m s = (s', some e) →
        m.sendResult (nsent s') = some e ∧
        SendsOk m (nsent s) (nsent s') ∧
        ∃ u, FrontOf u flushEvents ∧ s'.events = s.events ++ u) := by
  constructor
  · intro h
    have hr := flush_runs m s
    rw [h] at hr
    exact ⟨hr.1, sentBytes_flushEvents⟩
  · intro e h
    have hr := flush_runs m s
    rw [h] at hr
    exact ⟨hr.2.1, hr.2.2, hr.1⟩

/-- Witness for C7: a successful flush on an always-succeeding
peripheral. -/
theorem flush_twenty_zeros_fail_fast_witness :
    (flush mOk s0).1.events = s0.events ++ flushEvents ∧
    sentBytes flushEvents = List.replicate 20 0 :=
  (flush_twenty_zeros_fail_fast mOk s0 (flush mOk s0).1).1 rfl

/-- C8: the result or error of a drain read is never surfaced: every
operation is unchanged when the peripheral's receive behaviour changes
(including a receive failing on every call, since any receive outcome is
discarded), and each operation returns an error only when some send
failed. -/
theorem drain_results_never_surfaced {F : Type} (sendR : Nat → Option F)
    (r1 r2 : Nat → Option Nat) (s : SpiState) :
    (∀ d, write_byte (⟨sendR, r1⟩ : SpiModel F) s d =
        write_byte (⟨sendR, r2⟩ : SpiModel F) s d) ∧
    flush (⟨sendR, r1⟩ : SpiModel F) s = flush (⟨sendR, r2⟩ : SpiModel F) s ∧
    (∀ idle ps, ws2812Write idle (⟨sendR, r1⟩ : SpiModel F) s ps =
        ws2812Write idle (⟨sendR, r2⟩ : SpiModel F) s ps) ∧
    (∀ idle ps, sk6812wWrite idle (⟨sendR, r1⟩ : SpiModel F) s ps =
        sk6812wWrite idle (⟨sendR, r2⟩ : SpiModel F) s ps) ∧
    (∀ d s' e, write_byte (⟨sendR, r1⟩ : SpiModel F) s d = (s', some e) →
        ∃ j, sendR j = some e) ∧
    (∀ s' e, flush (⟨sendR, r1⟩ : SpiModel F) s = (s', some e) →
        ∃ j, sendR j = some e) ∧
    (∀ idle ps s' e,
        ws2812Write idle (⟨sendR, r1⟩ : SpiModel F) s ps = (s', some e) →
        ∃ j, sendR j = some e) ∧
    (∀ idle ps s' e,
        sk6812wWrite idle (⟨sendR, r1⟩ : SpiModel F) s ps = (s', some e) →
        ∃ j, sendR j = some e) := by
  refine ⟨fun d => @write_byte_indep F ⟨sendR, r1⟩ ⟨sendR, r2⟩ rfl s d,
    @flush_indep F ⟨sendR, r1⟩ ⟨sendR, r2⟩ rfl s,
    fun idle ps => @ws2812Write_indep F ⟨sendR, r1⟩ ⟨sendR, r2⟩ rfl idle s ps,
    fun idle ps => @sk6812wWrite_indep F ⟨sendR, r1⟩ ⟨sendR, r2⟩ rfl idle s ps,
    ?_, ?_, ?_, ?_⟩
  · intro d s' e h
    have hr := write_byte_runs (⟨sendR, r1⟩ : SpiModel F) s d
    rw [h] at hr
    exact ⟨nsent s', hr.2.1⟩
  · intro s' e h
    have hr := flush_runs (⟨sendR, r1⟩ : SpiModel F) s
    rw [h] at hr
    exact ⟨nsent s', hr.2.1⟩
  · intro idle ps s' e h
    have hr := ws2812Write_runs idle (⟨sendR, r1⟩ : SpiModel F) s ps
    rw [h] at hr
    exact ⟨nsent s', hr.2.1⟩
  · intro idle ps s' e h
    have hr := sk6812wWrite_runs idle (⟨sendR, r1⟩ : SpiModel F) s ps
    rw [h] at hr
    exact ⟨nsent s', hr.2.1⟩

/-- Witness for C8: on a peripheral whose every send fails, the error a
`write_byte` call surfaces is one a send produced. -/
theorem drain_results_never_surfaced_witness :
    ∃ j, mFail.sendResult j = some () :=
  (drain_results_never_surfaced mFail.sendResult mFail.readResult
    mFail.readResult s0).2.2.2.2.1 0 (write_byte mFail s0 0).1 () rfl

/-- C9: each of the three bytes `write_byte` sends for any input byte is
nonzero (every 3-bit symbol starts with a 1), so encoded channel data is
always distinguishable from the all-zero flush bytes. -/
theorem encoded_bytes_nonzero (b : Fin 256) :
    (∀ (F : Type) (m : SpiModel F) (s s' : SpiState),
        write_byte m s b.val = (s', none) →
        sentBytes s'.events = sentBytes s.events ++ encBytes b.val) ∧
    ∀ x ∈ encBytes b.val, x ≠ 0 := by
  refine ⟨?_, encBytes_ne_zero b⟩
  intro F m s s' h
  have hr := write_byte_runs m s b.val
  rw [h] at hr
  rw [hr.1, sentBytes_append, sentBytes_encEvents]

/-- Witness for C9 at input byte 0, whose three wire bytes are all
nonzero. -/
theorem encoded_bytes_nonzero_witness :
    sentBytes (write_byte mOk s0 0).1.events =
      sentBytes s0.events ++ encBytes 0 :=
  (encoded_bytes_nonzero ⟨0, by decide⟩).1 Unit mOk s0 (write_byte mOk s0 0).1 rfl

/-- C10: with the same send outcomes and all sends succeeding, the byte
sequence passed to the peripheral's send is identical whatever the
non-blocking read returns, for both variants. -/
theorem write_trace_indep_of_reads {F : Type} (idle : Bool)
    (sendR : Nat → Option F) (r1 r2 : Nat → Option Nat) (s : SpiState) :
    (∀ ps : List RGB8,
        (ws2812Write idle (⟨sendR, r1⟩ : SpiModel F) s ps).2 = none →
        (ws2812Write idle (⟨sendR, r2⟩ : SpiModel F) s ps).2 = none →
        sentBytes (ws2812Write idle (⟨sendR, r1⟩ : SpiModel F) s ps).1.events =
          sentBytes (ws2812Write idle (⟨sendR, r2⟩ : SpiModel F) s ps).1.events) ∧
    (∀ ps : List RGBW8,
        (sk6812wWrite idle (⟨sendR, r1⟩ : SpiModel F) s ps).2 = none →
        (sk6812wWrite idle (⟨sendR, r2⟩ : SpiModel F) s ps).2 = none →
        sentBytes (sk6812wWrite idle (⟨sendR, r1⟩ : SpiModel F) s ps).1.events =
          sentBytes (sk6812wWrite idle (⟨sendR, r2⟩ : SpiModel F) s ps).1.events) := by
  constructor
  · intro ps h1 h2
    rw [@ws2812Write_indep F ⟨sendR, r1⟩ ⟨sendR, r2⟩ rfl idle s ps]
  · intro ps h1 h2
    rw [@sk6812wWrite_indep F ⟨sendR, r1⟩ ⟨sendR, r2⟩ rfl idle s ps]

/-- Witness for C10: one pixel with all sends succeeding, one run with a
silent receive, one with a receive returning data on every call. -/
theorem write_trace_indep_of_reads_witness :
    sentBytes (ws2812Write false
        (⟨mOk.sendResult, mOk.readResult⟩ : SpiModel Unit) s0
        [⟨1, 2, 3⟩]).1.events =
      sentBytes (ws2812Write false
        (⟨mOk.sendResult, fun n => some n⟩ : SpiModel Unit) s0
        [⟨1, 2, 3⟩]).1.events :=
  (write_trace_indep_of_reads false mOk.sendResult mOk.readResult
    (fun n => some n) s0).1 [⟨1, 2, 3⟩] rfl rfl
